import Mathlib

/-!
Verification of the worklenz session/identity bridging layer.

This file gives a shallow embedding of three backend components and proves
the specified properties about them:

* the Session Bridge (`src/middlewares/session-middleware.ts`): rewriting the
  `x-session-id` / `x-session-name` headers into a signed session cookie;
* the Guild Membership Gateway (`DiscordBotService`): `isUserInGuild` and the
  reconnect backoff policy;
* the Signup Orchestrator (`passport-local-signup.ts`): the gate sequence of
  `handleSignUp`, the Discord-id format validator and the commit/email step.

Strings manipulated by the middleware are modelled as `List Char` (`Str`),
so that the JavaScript string operations (`split`, `trim`, `startsWith`,
`encodeURIComponent`, ...) become executable Lean functions amenable to
both evaluation and proof.  Platform primitives that are not part of the
repository (the HMAC digest inside `cookie-signature`) are taken as
parameters; everything else is translated directly from the source.
-/

namespace WL

/-- JavaScript strings, modelled as lists of characters. -/
abbrev Str := List Char

/-- The whitespace set trimmed by JavaScript `String.prototype.trim`
(ASCII whitespace, NBSP, BOM, and the Unicode space separators). -/
def jsWS (c : Char) : Bool :=
  c.toNat = 9 || c.toNat = 10 || c.toNat = 11 || c.toNat = 12 || c.toNat = 13 ||
  c.toNat = 32 || c.toNat = 160 || c.toNat = 65279 ||
  (8192 ≤ c.toNat && c.toNat ≤ 8202) ||
  c.toNat = 8232 || c.toNat = 8233 || c.toNat = 8239 || c.toNat = 8287 ||
  c.toNat = 12288

/-- JavaScript `s.trim()`: strip leading and trailing whitespace. -/
def jsTrim (s : Str) : Str :=
  ((s.dropWhile jsWS).reverse.dropWhile jsWS).reverse

/-- JavaScript `s.split(sep)` for a one-character separator: `""` splits to
`[""]`, separators at the ends produce empty fragments. -/
def splitOnChar (sep : Char) : Str → List Str
  | [] => [[]]
  | c :: cs =>
    match splitOnChar sep cs with
    | [] => [[c]]
    | h :: t => if c = sep then [] :: h :: t else (c :: h) :: t

/-- JavaScript `arr.join(sep)` for a one-character separator. -/
def joinChar (sep : Char) : List Str → Str
  | [] => []
  | [p] => p
  | p :: q :: ps => p ++ sep :: joinChar sep (q :: ps)

/-- JavaScript `s.lastIndexOf(c)`, with `none` standing for `-1`. -/
def lastIndexOfChar (c : Char) : Str → Option Nat
  | [] => none
  | a :: as =>
    match lastIndexOfChar c as with
    | some i => some (i + 1)
    | none => if a = c then some 0 else none

/-- Upper-case hexadecimal digit for `n < 16`, as produced by
JavaScript `encodeURIComponent`. -/
def hexDigitChar (n : Nat) : Char :=
  if n < 10 then Char.ofNat (48 + n) else Char.ofNat (55 + n)

/-- Value of a hexadecimal digit character (upper or lower case). -/
def hexCharVal (c : Char) : Option Nat :=
  if 48 ≤ c.toNat ∧ c.toNat ≤ 57 then some (c.toNat - 48)
  else if 65 ≤ c.toNat ∧ c.toNat ≤ 70 then some (c.toNat - 55)
  else if 97 ≤ c.toNat ∧ c.toNat ≤ 102 then some (c.toNat - 87)
  else none

/-- The characters `encodeURIComponent` leaves unescaped:
`A-Z a-z 0-9 - _ . ! ~ * apostrophe ( )`. -/
def isUnreservedURI (c : Char) : Bool :=
  (48 ≤ c.toNat && c.toNat ≤ 57) || (65 ≤ c.toNat && c.toNat ≤ 90) ||
  (97 ≤ c.toNat && c.toNat ≤ 122) ||
  c.toNat = 45 || c.toNat = 95 || c.toNat = 46 || c.toNat = 33 ||
  c.toNat = 126 || c.toNat = 42 || c.toNat = 39 || c.toNat = 40 || c.toNat = 41

/-- UTF-8 byte sequence of a code point (1 to 4 bytes). -/
def utf8Bytes (c : Char) : List Nat :=
  let n := c.toNat
  if n < 128 then [n]
  else if n < 2048 then [192 + n / 64, 128 + n % 64]
  else if n < 65536 then [224 + n / 4096, 128 + n / 64 % 64, 128 + n % 64]
  else [240 + n / 262144, 128 + n / 4096 % 64, 128 + n / 64 % 64, 128 + n % 64]

/-- Percent-escape of a single byte: `%XY` with upper-case hex. -/
def pctByte (b : Nat) : Str :=
  ['%', hexDigitChar (b / 16), hexDigitChar (b % 16)]

/-- Percent-escape of a byte sequence. -/
def pctBytes : List Nat → Str
  | [] => []
  | b :: bs => pctByte b ++ pctBytes bs

/-- Encoding of one character by `encodeURIComponent`: unreserved characters pass
through, everything else is percent-encoded via its UTF-8 bytes. -/
def encodeChar (c : Char) : Str :=
  if isUnreservedURI c then [c] else pctBytes (utf8Bytes c)

/-- JavaScript `encodeURIComponent`. -/
def encodeURIComponent : Str → Str
  | [] => []
  | c :: cs => encodeChar c ++ encodeURIComponent cs

/-- Whether a byte is a UTF-8 continuation byte (`10xxxxxx`). -/
def contB (b : Nat) : Bool := 128 ≤ b && b < 192

/-- First phase of `decodeURIComponent`: turn the character sequence into a
byte sequence, decoding `%XY` escapes and expanding literal characters to
their UTF-8 bytes; `none` models the `URIError` thrown on a malformed
escape. -/
def pctDecodeBytes : Str → Option (List Nat)
  | [] => some []
  | c :: rest =>
    if c = '%' then
      match rest with
      | h1 :: h2 :: rest2 =>
        match hexCharVal h1, hexCharVal h2 with
        | some a, some b => (pctDecodeBytes rest2).map (fun bs => (a * 16 + b) :: bs)
        | _, _ => none
      | _ => none
    else
      (pctDecodeBytes rest).map (fun bs => utf8Bytes c ++ bs)

/-- One step of strict UTF-8 decoding: given the lead byte and the
remaining bytes, produce the decoded code point and the bytes left over,
or `none` for an invalid sequence (bad lead, missing or malformed
continuation bytes, overlong form, surrogate, out of range). -/
def utf8Step (b0 : Nat) (bs : List Nat) : Option (Nat × List Nat) :=
  if b0 < 128 then some (b0, bs)
  else if b0 < 192 then none
  else if b0 < 224 then
    match bs with
    | b1 :: bs2 =>
      if contB b1 then
        let n := (b0 - 192) * 64 + (b1 - 128)
        if 128 ≤ n then some (n, bs2) else none
      else none
    | [] => none
  else if b0 < 240 then
    match bs with
    | b1 :: b2 :: bs2 =>
      if contB b1 && contB b2 then
        let n := (b0 - 224) * 4096 + (b1 - 128) * 64 + (b2 - 128)
        if 2048 ≤ n && !(55296 ≤ n && n < 57344) then some (n, bs2) else none
      else none
    | _ => none
  else if b0 < 248 then
    match bs with
    | b1 :: b2 :: b3 :: bs2 =>
      if contB b1 && contB b2 && contB b3 then
        let n := (b0 - 240) * 262144 + (b1 - 128) * 4096 + (b2 - 128) * 64 + (b3 - 128)
        if 65536 ≤ n && n < 1114112 then some (n, bs2) else none
      else none
    | _ => none
  else none

/-- Strict UTF-8 decoding, driven by a fuel counter (each step consumes at
least one byte, so any fuel at least the list length gives the fixpoint). -/
def utf8DecodeAux : Nat → List Nat → Option Str
  | _, [] => some []
  | 0, _ :: _ => none
  | fuel + 1, b0 :: bs =>
    match utf8Step b0 bs with
    | some (n, rest) => (utf8DecodeAux fuel rest).map (fun cs => Char.ofNat n :: cs)
    | none => none

/-- Second phase of `decodeURIComponent`: strict UTF-8 decoding of the byte
sequence; `none` models the `URIError` thrown on an invalid sequence. -/
def utf8Decode (l : List Nat) : Option Str :=
  utf8DecodeAux l.length l

/-- JavaScript `decodeURIComponent` (total model: `none` is `URIError`). -/
def decodeURIComponent (s : Str) : Option Str :=
  (pctDecodeBytes s).bind utf8Decode

/-- UTF-8 byte sequence of a whole string. -/
def utf8Encode : Str → List Nat
  | [] => []
  | c :: cs => utf8Bytes c ++ utf8Encode cs

/-!
### The `cookie-signature` package and express-session cookie verification

`cookie-signature.sign(val, secret)` returns `val + "." + hmac(secret, val)`
where `hmac` is the base64 HMAC digest with trailing `=` stripped.  The
digest function itself is a platform primitive, so it is a parameter here;
the relevant fact about it (its output never contains a `.`) appears as a
hypothesis where needed.  `unsign` splits at the last `.` (JavaScript
`lastIndexOf` returning `-1` makes `slice(0, -1)` drop the last character)
and re-signs the candidate value.  `express-session` recognises a signed
cookie by its `s:` prefix, strips it, and unsigns the remainder.
-/

/-- The `cookie-signature` function `sign(val, secret)`. -/
def signModel (hmac : Str → Str → Str) (secret v : Str) : Str :=
  v ++ '.' :: hmac secret v

/-- The `cookie-signature` function `unsign(input, secret)`; `none` models `false`. -/
def unsignModel (hmac : Str → Str → Str) (secret input : Str) : Option Str :=
  let tentative :=
    match lastIndexOfChar '.' input with
    | some i => input.take i
    | none => input.dropLast
  if signModel hmac secret tentative = input then some tentative else none

/-- Verification of a cookie value as done by the session engine: strip the
`s:` prefix and unsign with the session secret. -/
def verifySignedVal (hmac : Str → Str → Str) (secret v : Str) : Option Str :=
  if ['s', ':'].isPrefixOf v then unsignModel hmac secret (v.drop 2) else none

/-!
### The Session Bridge (`session-middleware.ts`, exported middleware)
-/

/-- The parts of an in-flight request the bridge reads and writes: the two
custom headers and the cookie header (`none` = header absent). -/
structure Req where
  xSessionId : Option Str
  xSessionName : Option Str
  cookie : Option Str
deriving DecidableEq, Repr

/-- JavaScript truthiness of an optional string header:
absent and empty are falsy. -/
def truthyS : Option Str → Bool
  | none => false
  | some s => !s.isEmpty

/-- Result of running the bridge: the normalized request handed to the
underlying session engine, and whether control reached that engine (the
translation of the unconditional `sessionMiddleware(req, res, ...)` call). -/
structure BridgeResult where
  req : Req
  delegated : Bool
deriving DecidableEq, Repr

/-- The synthesized signed session cookie
`headerSessionName + "=" + encodeURIComponent("s:" + sign(headerSessionId))`. -/
def signedSessionCookie (hmac : Str → Str → Str) (secret sid name : Str) : Str :=
  name ++ '=' :: encodeURIComponent ('s' :: ':' :: signModel hmac secret sid)

/-- The unsigned fallback cookie built when signing throws:
`headerSessionName + "=s%3A" + headerSessionId`. -/
def fallbackSessionCookie (sid name : Str) : Str :=
  name ++ '=' :: 's' :: '%' :: '3' :: 'A' :: sid

/-- The session bridge middleware (default export of
`session-middleware.ts`).  `signOk = false` models
`cookieSignature.sign` raising, which sends the middleware into its
`catch` fallback.  Control always proceeds to the session engine. -/
def sessionBridge (hmac : Str → Str → Str) (secret : Str) (signOk : Bool)
    (req : Req) : BridgeResult :=
  match req.xSessionId, req.xSessionName with
  | some sid, some name =>
    if sid.isEmpty || name.isEmpty then ⟨req, true⟩
    else if signOk then
      let sc := signedSessionCookie hmac secret sid name
      match req.cookie with
      | some c =>
        ⟨{ req with cookie := some (joinChar ';'
            ((splitOnChar ';' c).filter
              (fun ck => !(name.isPrefixOf (jsTrim ck))) ++ [sc])) }, true⟩
      | none => ⟨{ req with cookie := some sc }, true⟩
    else
      ⟨{ req with cookie := some (fallbackSessionCookie sid name) }, true⟩
  | _, _ => ⟨req, true⟩

/-- Key of a cookie fragment: the trimmed fragment up to the first `=`. -/
def cookieKey (frag : Str) : Str :=
  (jsTrim frag).takeWhile (fun c => !(c == '='))

/-- Value of a cookie fragment: what follows the first `=`. -/
def cookieValOf (frag : Str) : Str :=
  ((jsTrim frag).dropWhile (fun c => !(c == '='))).drop 1

/-- Look up the value of the first cookie with the given name in a cookie
header (first occurrence wins, as in the `cookie` package's `parse`). -/
def getCookie (header name : Str) : Option Str :=
  (splitOnChar ';' header).findSome?
    (fun f => if cookieKey f = name then some (cookieValOf f) else none)

/-!
### The Guild Membership Gateway (`DiscordBotService`)

`discord.js` client behaviour is modelled by functions describing which
guild fetches and member fetches succeed; a failed fetch (`none` /
`false`) stands for the corresponding promise rejecting.
-/

/-- Behaviour of a fetched guild: for which user ids
`guild.members.fetch(userId)` resolves. -/
structure GuildModel where
  memberFetchOk : String → Bool

/-- Behaviour of the `discord.js` client: which guild ids
`client.guilds.fetch(guildId)` resolves for. -/
structure ClientModel where
  fetchGuild : String → Option GuildModel

/-- Mutable state of `DiscordBotService`. -/
structure BotState where
  client : Option ClientModel
  initialized : Bool
  reconnectAttempts : Nat

/-- The `MAX_RECONNECT_ATTEMPTS` constant of `DiscordBotService`. -/
def MAX_RECONNECT_ATTEMPTS : Nat := 5

/-- Model of `DiscordBotService.isUserInGuild`: returns `false` when the client is
absent or not initialized, when the guild fetch rejects, or when the
member fetch rejects; otherwise the fetched member object is truthy and
the result is `true`.  The function is total: no path raises. -/
def isUserInGuild (st : BotState) (userId guildId : String) : Bool :=
  match st.client with
  | none => false
  | some c =>
    if !st.initialized then false
    else
      match c.fetchGuild guildId with
      | none => false
      | some g => g.memberFetchOk userId

/-- The `isDiscordUserInGuild` wrapper in `passport-local-signup.ts`
(`try { return await discordBot.isUserInGuild(...) } catch { return false }`). -/
def isDiscordUserInGuild (st : BotState) (discordId guildId : String) : Bool :=
  isUserInGuild st discordId guildId

/-- Model of `DiscordBotService.handleReconnect`: at or above the attempt ceiling,
do nothing; otherwise bump the attempt counter and schedule a reconnect
after `Math.min(1000 * Math.pow(2, attempts), 30000)` milliseconds.  The
returned `Option Nat` is the scheduled delay (`none` = no reconnect
scheduled). -/
def handleReconnect (st : BotState) : BotState × Option Nat :=
  if st.reconnectAttempts ≥ MAX_RECONNECT_ATTEMPTS then (st, none)
  else
    let n := st.reconnectAttempts + 1
    ({ st with reconnectAttempts := n }, some (min (1000 * 2 ^ n) 30000))

/-- Delays scheduled by `k` consecutive transport-error events. -/
def runTransportErrors : Nat → BotState → List (Option Nat)
  | 0, _ => []
  | k + 1, st =>
    let r := handleReconnect st
    r.2 :: runTransportErrors k r.1

/-!
### The Signup Orchestrator (`passport-local-signup.ts`, `handleSignUp`)

Database lookups, the guild gateway and the `register_user` stored
procedure are the environment; the body fields are optional strings with
JavaScript truthiness.  Besides the result handed to `done`, the model
returns a trace counting the gateway queries, `registerUser` commit calls
and welcome-email dispatch attempts, with the fire-and-forget outcome of
each email recorded (the result never depends on it).
-/

/-- JavaScript truthiness of an optional string. -/
def truthy : Option String → Bool
  | none => false
  | some s => !s.isEmpty

/-- Rendering of an optional string into a template literal
(`undefined` when absent, as in JavaScript). -/
def jsStr : Option String → String
  | none => "undefined"
  | some s => s

/-- Validator `isValidDiscordIdFormat`: the test of the 17-19 digit pattern, i.e. the whole
string is a run of 17 to 19 decimal digits. -/
def isValidDiscordIdFormat (s : String) : Bool :=
  let ds := s.data.takeWhile Char.isDigit
  17 ≤ ds.length && ds.length ≤ 19 && (s.data.dropWhile Char.isDigit).isEmpty

/-- The relevant fields of `req.body` for `handleSignUp`. -/
structure SignupBody where
  name : Option String
  email : Option String
  team_name : Option String
  team_id : Option String
  team_member_id : Option String
  discord_id : Option String
  timezone : Option String

/-- Results of the three signup database lookups
(`isDiscordIdTaken`, `isGoogleAccountFound`, `isAccountDeactivated`). -/
structure SignupDb where
  discordIdTaken : String → Bool
  googleAccountFound : String → Bool
  accountDeactivated : String → Bool

/-- Error raised by the `register_user` call, carrying the message and the
optional violated-constraint name that `handleSignUp` dispatches on. -/
structure CommitError where
  message : String
  constraint : Option String
deriving DecidableEq, Repr

/-- Outcome of the `registerUser` commit call. -/
inductive CommitOutcome where
  | ok (user : String)
  | fail (e : CommitError)
deriving DecidableEq, Repr

/-- Environment of one `handleSignUp` run. -/
structure SignupEnv where
  db : SignupDb
  bot : BotState
  guildIdCfg : Option String
  commit : CommitOutcome
  emailOk : Bool

/-- Effect trace of one `handleSignUp` run. -/
structure SignupTrace where
  gatewayQueries : Nat
  commitCalls : Nat
  emailAttempts : Nat
  emailOutcomes : List Bool
deriving DecidableEq, Repr

/-- What `handleSignUp` hands to `done`: a flash error message, or the
created user together with the success flash message. -/
inductive SignupResult where
  | rejected (msg : String)
  | succeeded (user : String) (msg : String)
deriving DecidableEq, Repr

/-- Flash message of gate 1 (missing team name). -/
def MSG_TEAM_NAME_REQUIRED : String := "Team name is required"

/-- Flash message of gate 2 (invite-only enforcement). -/
def MSG_INVITE_ONLY : String :=
  "Registration is invite-only. Please request an invite from your team."

/-- Flash message of gate 3 (missing Discord id). -/
def MSG_DISCORD_REQUIRED : String :=
  "Discord ID is required. Please provide your Discord User ID."

/-- Flash message of gate 4 (Discord id format). -/
def MSG_DISCORD_FORMAT : String :=
  "Invalid Discord ID format. Discord IDs must be 17-19 digits."

/-- Flash message of gate 5 (Discord id already registered). -/
def MSG_DISCORD_TAKEN : String :=
  "This Discord ID is already registered. Please use your own Discord ID."

/-- Flash message of gate 6 (guild membership). -/
def MSG_GUILD_REQUIRED : String :=
  "You must be a member of the ESX Discord server to register. Please join the server and try again."

/-- Success flash message. -/
def MSG_SIGNUP_SUCCESS : String :=
  "Registration successful. Please check your email for verification."

/-- Constant `DEFAULT_ERROR_MESSAGE` from `shared/constants` (its file is not part
of the excerpt; the exact text is immaterial to every theorem below, only
the identity of the constant is used). -/
def DEFAULT_ERROR_MESSAGE : String :=
  "Oops! Something went wrong. Please try again later."

/-- JavaScript `const [, value] = msg.split(":")` followed by template
interpolation of `value`. -/
def splitSecondOfMsg (msg : String) : String :=
  match List.splitOn ':' msg.data with
  | _ :: v :: _ => String.mk v
  | _ => "undefined"

/-- Whether `sub` occurs as a contiguous run inside `l`. -/
def listIncludes (sub : Str) : Str → Bool
  | [] => sub.isEmpty
  | a :: t => sub.isPrefixOf (a :: t) || listIncludes sub t

/-- JavaScript `message.includes(sub)`. -/
def strIncludes (msg sub : String) : Bool :=
  listIncludes sub.data msg.data

/-- The `catch` block of `handleSignUp`: map a `registerUser` error to the
user-facing flash message. -/
def mapCommitError (b : SignupBody) (e : CommitError) : String :=
  if e.message = "ERROR_INVALID_JOINING_EMAIL" then
    "No invitations found for email " ++ jsStr b.email ++ "."
  else if strIncludes e.message "EMAIL_EXISTS_ERROR" ||
      e.constraint = some "users_google_id_uindex" then
    "Worklenz account already exists for email " ++ splitSecondOfMsg e.message ++ "."
  else if strIncludes e.message "TEAM_NAME_EXISTS_ERROR" then
    "Team name \"" ++ splitSecondOfMsg e.message ++ "\" already exists. Please choose a different team name."
  else if e.constraint = some "teams_url_uindex" ||
      e.constraint = some "teams_name_uindex" then
    "Team name \"" ++ jsStr b.team_name ++ "\" is already taken. Please choose a different team name."
  else DEFAULT_ERROR_MESSAGE

/-- Model of `handleSignUp`: the gate sequence of `passport-local-signup.ts`.
`email` is the credential field extracted by passport (`req.body.email`).
Returns the `done` outcome and the effect trace. -/
def handleSignUp (env : SignupEnv) (b : SignupBody) (email : String) :
    SignupResult × SignupTrace :=
  if !truthy b.team_name then
    (.rejected MSG_TEAM_NAME_REQUIRED, ⟨0, 0, 0, []⟩)
  else if !truthy b.team_member_id then
    (.rejected MSG_INVITE_ONLY, ⟨0, 0, 0, []⟩)
  else if !truthy b.discord_id then
    (.rejected MSG_DISCORD_REQUIRED, ⟨0, 0, 0, []⟩)
  else
    let did := b.discord_id.getD ""
    if !isValidDiscordIdFormat did then
      (.rejected MSG_DISCORD_FORMAT, ⟨0, 0, 0, []⟩)
    else if env.db.discordIdTaken did then
      (.rejected MSG_DISCORD_TAKEN, ⟨0, 0, 0, []⟩)
    else if !truthy env.guildIdCfg then
      (.rejected DEFAULT_ERROR_MESSAGE, ⟨0, 0, 0, []⟩)
    else if !isDiscordUserInGuild env.bot did (env.guildIdCfg.getD "") then
      (.rejected MSG_GUILD_REQUIRED, ⟨1, 0, 0, []⟩)
    else if env.db.googleAccountFound email then
      (.rejected (jsStr b.email ++ " is already linked with a Google account."),
        ⟨1, 0, 0, []⟩)
    else if env.db.accountDeactivated email then
      (.rejected ("Account for email " ++ email ++
        " has been deactivated. Please contact support to reactivate your account."),
        ⟨1, 0, 0, []⟩)
    else
      match env.commit with
      | .ok user =>
        (.succeeded user MSG_SIGNUP_SUCCESS, ⟨1, 1, 1, [env.emailOk]⟩)
      | .fail e =>
        (.rejected (mapCommitError b e), ⟨1, 1, 0, []⟩)

/-!
## Supporting lemmas: characters and the URI codec
-/

theorem toNat_ofNat_valid (n : Nat) (h : n.isValidChar) :
    (Char.ofNat n).toNat = n := by
  simp [Char.ofNat, h, Char.toNat, Char.ofNatAux, UInt32.toNat, BitVec.toNat_ofNatLt]

theorem char_valid_ranges (c : Char) :
    c.toNat < 55296 ∨ (57343 < c.toNat ∧ c.toNat < 1114112) := by
  have h := c.valid
  simp [Char.toNat]
  rcases h with h | h
  · exact Or.inl h
  · exact Or.inr ⟨h.1, h.2⟩

theorem hexCharVal_hexDigitChar : ∀ n < 16, hexCharVal (hexDigitChar n) = some n := by
  decide

theorem hexDigitChar_ne_pct : ∀ n < 16, hexDigitChar n ≠ '%' := by
  decide

theorem utf8Bytes_lt (c : Char) : ∀ b ∈ utf8Bytes c, b < 256 := by
  have h := char_valid_ranges c
  have h2 : c.toNat < 1114112 := by rcases h with h | h <;> omega
  intro b hb
  simp only [utf8Bytes] at hb
  split at hb
  · simp at hb
    omega
  · split at hb
    · simp at hb
      rcases hb with hb | hb <;> omega
    · split at hb
      · simp at hb
        rcases hb with hb | hb | hb <;> omega
      · simp at hb
        rcases hb with hb | hb | hb | hb <;> omega

theorem pctDecodeBytes_pctBytes (bs : List Nat) (h : ∀ b ∈ bs, b < 256) (s : Str) :
    pctDecodeBytes (pctBytes bs ++ s) = (pctDecodeBytes s).map (fun t => bs ++ t) := by
  induction bs with
  | nil =>
    cases hd : pctDecodeBytes s <;> simp [pctBytes, hd]
  | cons b bs ih =>
    have hb : b < 256 := h b (by simp)
    have h1 : b / 16 < 16 := by omega
    have h2 : b % 16 < 16 := by omega
    have hih := ih (fun x hx => h x (List.mem_cons_of_mem _ hx))
    have hbb : b / 16 * 16 + b % 16 = b := by omega
    simp only [pctBytes, pctByte, List.cons_append, List.append_assoc, List.nil_append]
    rw [pctDecodeBytes]
    rw [if_pos rfl, hexCharVal_hexDigitChar _ h1, hexCharVal_hexDigitChar _ h2]
    show (pctDecodeBytes (pctBytes bs ++ s)).map (fun t => (b / 16 * 16 + b % 16) :: t) =
      (pctDecodeBytes s).map (fun t => (b :: bs) ++ t)
    rw [hbb, hih, Option.map_map]
    cases hd : pctDecodeBytes s <;> simp

theorem unreserved_ne_pct (c : Char) (h : isUnreservedURI c = true) : ¬ c = '%' := by
  intro hc
  subst hc
  exact absurd h (by decide)

theorem pctDecodeBytes_encodeChar (c : Char) (s : Str) :
    pctDecodeBytes (encodeChar c ++ s) =
      (pctDecodeBytes s).map (fun t => utf8Bytes c ++ t) := by
  by_cases h : isUnreservedURI c = true
  · simp only [encodeChar, if_pos h, List.singleton_append]
    rcases s with _ | ⟨h1, _ | ⟨h2, t⟩⟩ <;>
      simp [pctDecodeBytes, unreserved_ne_pct c h]
  · simp only [encodeChar, if_neg h]
    exact pctDecodeBytes_pctBytes _ (utf8Bytes_lt c) s

theorem pctDecodeBytes_encode (l : Str) :
    pctDecodeBytes (encodeURIComponent l) = some (utf8Encode l) := by
  induction l with
  | nil => rfl
  | cons c cs ih =>
    rw [encodeURIComponent, pctDecodeBytes_encodeChar, ih]
    rfl

theorem utf8Step_length (b0 n : Nat) (bs rest : List Nat)
    (h : utf8Step b0 bs = some (n, rest)) : rest.length ≤ bs.length := by
  rcases bs with _ | ⟨b1, _ | ⟨b2, _ | ⟨b3, bs3⟩⟩⟩ <;>
    · simp only [utf8Step] at h
      split_ifs at h <;> simp_all <;> simp [← h.2] <;> omega

theorem utf8DecodeAux_fuel (fuel : Nat) :
    ∀ l : List Nat, l.length ≤ fuel →
      utf8DecodeAux fuel l = utf8DecodeAux l.length l := by
  induction fuel using Nat.strong_induction_on with
  | _ fuel ih =>
    intro l hl
    match l with
    | [] => simp [utf8DecodeAux]
    | b0 :: bs =>
      simp only [List.length_cons] at hl ⊢
      obtain ⟨f, rfl⟩ : ∃ f, fuel = f + 1 := ⟨fuel - 1, by omega⟩
      rw [utf8DecodeAux, utf8DecodeAux]
      cases hstep : utf8Step b0 bs with
      | none => rfl
      | some p =>
        obtain ⟨n, rest⟩ := p
        have hr := utf8Step_length _ _ _ _ hstep
        have e1 : utf8DecodeAux f rest = utf8DecodeAux rest.length rest :=
          ih f (by omega) rest (by omega)
        have e2 : utf8DecodeAux bs.length rest = utf8DecodeAux rest.length rest :=
          ih bs.length (by omega) rest (by omega)
        simp [e1, e2]

theorem utf8Decode_utf8Bytes (c : Char) (bs : List Nat) :
    utf8Decode (utf8Bytes c ++ bs) = (utf8Decode bs).map (fun cs => c :: cs) := by
  have hv := char_valid_ranges c
  have hofn : Char.ofNat c.toNat = c := Char.ofNat_toNat c
  rcases Nat.lt_or_ge c.toNat 128 with hA | hA
  · have hb : utf8Bytes c = [c.toNat] := by
      simp only [utf8Bytes]
      rw [if_pos hA]
    have hstep : utf8Step c.toNat bs = some (c.toNat, bs) := by
      simp [utf8Step, hA]
    rw [hb, List.singleton_append]
    show utf8DecodeAux (c.toNat :: bs).length (c.toNat :: bs) = _
    simp only [List.length_cons]
    rw [utf8DecodeAux, hstep]
    show (utf8DecodeAux bs.length bs).map (fun cs => Char.ofNat c.toNat :: cs) =
      (utf8Decode bs).map (fun cs => c :: cs)
    rw [hofn]
    rfl
  rcases Nat.lt_or_ge c.toNat 2048 with hB | hB
  · have hb : utf8Bytes c = [192 + c.toNat / 64, 128 + c.toNat % 64] := by
      simp only [utf8Bytes]
      rw [if_neg (by omega), if_pos hB]
    have c1 : ¬(192 + c.toNat / 64 < 128) := by omega
    have c2 : ¬(192 + c.toNat / 64 < 192) := by omega
    have c3 : 192 + c.toNat / 64 < 224 := by omega
    have c4 : contB (128 + c.toNat % 64) = true := by
      simp only [contB, Bool.and_eq_true, decide_eq_true_eq]
      omega
    have c5 : (192 + c.toNat / 64 - 192) * 64 + (128 + c.toNat % 64 - 128) = c.toNat := by
      omega
    have c6 : 128 ≤ c.toNat := by omega
    have hstep : utf8Step (192 + c.toNat / 64) ((128 + c.toNat % 64) :: bs) =
        some (c.toNat, bs) := by
      simp [utf8Step, c1, c2, c3, c4]
      omega
    rw [hb]
    simp only [List.cons_append, List.nil_append]
    show utf8DecodeAux _ _ = _
    simp only [List.length_cons]
    rw [utf8DecodeAux, hstep]
    show (utf8DecodeAux (bs.length + 1) bs).map (fun cs => Char.ofNat c.toNat :: cs) =
      (utf8Decode bs).map (fun cs => c :: cs)
    rw [utf8DecodeAux_fuel (bs.length + 1) bs (by omega), hofn]
    rfl
  rcases Nat.lt_or_ge c.toNat 65536 with hC | hC
  · have hb : utf8Bytes c =
        [224 + c.toNat / 4096, 128 + c.toNat / 64 % 64, 128 + c.toNat % 64] := by
      simp only [utf8Bytes]
      rw [if_neg (by omega), if_neg (by omega), if_pos hC]
    have c1 : ¬(224 + c.toNat / 4096 < 128) := by omega
    have c2 : ¬(224 + c.toNat / 4096 < 192) := by omega
    have c3 : ¬(224 + c.toNat / 4096 < 224) := by omega
    have c4 : 224 + c.toNat / 4096 < 240 := by omega
    have c5 : (contB (128 + c.toNat / 64 % 64) && contB (128 + c.toNat % 64)) = true := by
      simp only [contB, Bool.and_eq_true, decide_eq_true_eq]
      omega
    have c6 : (224 + c.toNat / 4096 - 224) * 4096 + (128 + c.toNat / 64 % 64 - 128) * 64 +
        (128 + c.toNat % 64 - 128) = c.toNat := by
      omega
    have c7 : (decide (2048 ≤ c.toNat) &&
        !(decide (55296 ≤ c.toNat) && decide (c.toNat < 57344))) = true := by
      simp only [Bool.and_eq_true, Bool.not_eq_true', Bool.and_eq_false_iff,
        decide_eq_true_eq, decide_eq_false_iff_not]
      omega
    have hstep : utf8Step (224 + c.toNat / 4096)
        ((128 + c.toNat / 64 % 64) :: (128 + c.toNat % 64) :: bs) =
        some (c.toNat, bs) := by
      simp [utf8Step, c1, c2, c3, c4, c5]
      rcases hv with hvv | hvv <;> omega
    rw [hb]
    simp only [List.cons_append, List.nil_append]
    show utf8DecodeAux _ _ = _
    simp only [List.length_cons]
    rw [utf8DecodeAux, hstep]
    show (utf8DecodeAux (bs.length + 1 + 1) bs).map (fun cs => Char.ofNat c.toNat :: cs) =
      (utf8Decode bs).map (fun cs => c :: cs)
    rw [utf8DecodeAux_fuel (bs.length + 1 + 1) bs (by omega), hofn]
    rfl
  · have hv2 : c.toNat < 1114112 := by rcases hv with h | h <;> omega
    have hb : utf8Bytes c =
        [240 + c.toNat / 262144, 128 + c.toNat / 4096 % 64, 128 + c.toNat / 64 % 64,
          128 + c.toNat % 64] := by
      simp only [utf8Bytes]
      rw [if_neg (by omega), if_neg (by omega), if_neg (by omega)]
    have c1 : ¬(240 + c.toNat / 262144 < 128) := by omega
    have c2 : ¬(240 + c.toNat / 262144 < 192) := by omega
    have c3 : ¬(240 + c.toNat / 262144 < 224) := by omega
    have c4 : ¬(240 + c.toNat / 262144 < 240) := by omega
    have c5 : 240 + c.toNat / 262144 < 248 := by omega
    have c6 : (contB (128 + c.toNat / 4096 % 64) && contB (128 + c.toNat / 64 % 64) &&
        contB (128 + c.toNat % 64)) = true := by
      simp only [contB, Bool.and_eq_true, decide_eq_true_eq]
      omega
    have c7 : (240 + c.toNat / 262144 - 240) * 262144 + (128 + c.toNat / 4096 % 64 - 128) * 4096 +
        (128 + c.toNat / 64 % 64 - 128) * 64 + (128 + c.toNat % 64 - 128) = c.toNat := by
      omega
    have c8 : (decide (65536 ≤ c.toNat) && decide (c.toNat < 1114112)) = true := by
      simp only [Bool.and_eq_true, decide_eq_true_eq]
      omega
    have hstep : utf8Step (240 + c.toNat / 262144)
        ((128 + c.toNat / 4096 % 64) :: (128 + c.toNat / 64 % 64) ::
          (128 + c.toNat % 64) :: bs) =
        some (c.toNat, bs) := by
      simp [utf8Step, c1, c2, c3, c4, c5, c6]
      omega
    rw [hb]
    simp only [List.cons_append, List.nil_append]
    show utf8DecodeAux _ _ = _
    simp only [List.length_cons]
    rw [utf8DecodeAux, hstep]
    show (utf8DecodeAux (bs.length + 1 + 1 + 1) bs).map (fun cs => Char.ofNat c.toNat :: cs) =
      (utf8Decode bs).map (fun cs => c :: cs)
    rw [utf8DecodeAux_fuel (bs.length + 1 + 1 + 1) bs (by omega), hofn]
    rfl

theorem utf8Decode_utf8Encode (l : Str) : utf8Decode (utf8Encode l) = some l := by
  induction l with
  | nil => rfl
  | cons c cs ih =>
    rw [utf8Encode, utf8Decode_utf8Bytes, ih]
    rfl

/-- Round trip: `decodeURIComponent` inverts `encodeURIComponent` on every string. -/
theorem decodeURIComponent_encodeURIComponent (l : Str) :
    decodeURIComponent (encodeURIComponent l) = some l := by
  rw [decodeURIComponent, pctDecodeBytes_encode]
  exact utf8Decode_utf8Encode l

/-!
## Supporting lemmas: character classes of the encoder output
-/

theorem unreserved_props (c : Char) (h : isUnreservedURI c = true) :
    c ≠ ';' ∧ c ≠ '=' ∧ jsWS c = false := by
  have hn := h
  simp only [isUnreservedURI, Bool.or_eq_true, Bool.and_eq_true, decide_eq_true_eq] at hn
  refine ⟨?_, ?_, ?_⟩
  · intro he
    rw [he] at h
    exact absurd h (by decide)
  · intro he
    rw [he] at h
    exact absurd h (by decide)
  · rw [Bool.eq_false_iff]
    intro hw
    simp only [jsWS, Bool.or_eq_true, Bool.and_eq_true, decide_eq_true_eq] at hw
    omega

theorem hexDigitChar_props : ∀ m < 16,
    hexDigitChar m ≠ ';' ∧ hexDigitChar m ≠ '=' ∧ jsWS (hexDigitChar m) = false := by
  decide

theorem pctBytes_chars (bs : List Nat) (hb : ∀ b ∈ bs, b < 256) :
    ∀ ch ∈ pctBytes bs, ch ≠ ';' ∧ ch ≠ '=' ∧ jsWS ch = false := by
  induction bs with
  | nil => intro ch hch; simp [pctBytes] at hch
  | cons b bs ih =>
    intro ch hch
    have hblt : b < 256 := hb b (by simp)
    simp only [pctBytes, pctByte, List.cons_append, List.nil_append, List.mem_cons] at hch
    rcases hch with rfl | rfl | rfl | hch
    · exact ⟨by decide, by decide, by decide⟩
    · exact hexDigitChar_props (b / 16) (by omega)
    · exact hexDigitChar_props (b % 16) (by omega)
    · exact ih (fun x hx => hb x (List.mem_cons_of_mem _ hx)) ch hch

theorem encodeURIComponent_chars (l : Str) :
    ∀ ch ∈ encodeURIComponent l, ch ≠ ';' ∧ ch ≠ '=' ∧ jsWS ch = false := by
  induction l with
  | nil => intro ch hch; simp [encodeURIComponent] at hch
  | cons c cs ih =>
    intro ch hch
    rw [encodeURIComponent, List.mem_append] at hch
    rcases hch with hch | hch
    · by_cases hu : isUnreservedURI c = true
      · simp only [encodeChar, if_pos hu, List.mem_singleton] at hch
        rw [hch]
        exact unreserved_props c hu
      · simp only [encodeChar, if_neg hu] at hch
        exact pctBytes_chars _ (utf8Bytes_lt c) ch hch
    · exact ih ch hch

/-!
## Supporting lemmas: JavaScript split / join / trim / lastIndexOf
-/

theorem splitOnChar_ne_nil (sep : Char) (l : Str) : splitOnChar sep l ≠ [] := by
  induction l with
  | nil => simp [splitOnChar]
  | cons c cs ih =>
    rcases h : splitOnChar sep cs with _ | ⟨hd, tl⟩
    · exact absurd h ih
    · simp only [splitOnChar, h]
      split <;> simp

theorem splitOnChar_not_mem (sep : Char) (l : Str) :
    ∀ f ∈ splitOnChar sep l, sep ∉ f := by
  induction l with
  | nil =>
    intro f hf
    simp [splitOnChar] at hf
    simp [hf]
  | cons c cs ih =>
    intro f hf
    rcases h : splitOnChar sep cs with _ | ⟨hd, tl⟩
    · exact absurd h (splitOnChar_ne_nil sep cs)
    · simp only [splitOnChar, h] at hf
      by_cases hc : c = sep
      · rw [if_pos hc] at hf
        rcases List.mem_cons.mp hf with rfl | hf
        · simp
        · exact ih f (h ▸ hf)
      · rw [if_neg hc] at hf
        rcases List.mem_cons.mp hf with rfl | hf
        · intro hmem
          rcases List.mem_cons.mp hmem with rfl | hmem
          · exact hc rfl
          · exact ih hd (h ▸ List.mem_cons_self hd tl) hmem
        · exact ih f (h ▸ List.mem_cons_of_mem hd hf)

theorem splitOnChar_no_sep (sep : Char) (p : Str) (hp : sep ∉ p) :
    splitOnChar sep p = [p] := by
  induction p with
  | nil => rfl
  | cons a p ih =>
    have ha : ¬a = sep := fun he => hp (he ▸ List.mem_cons_self a p)
    have hp2 : sep ∉ p := fun hm => hp (List.mem_cons_of_mem a hm)
    simp only [splitOnChar, ih hp2]
    rw [if_neg ha]

theorem splitOnChar_append_sep (sep : Char) (p rest : Str) (hp : sep ∉ p) :
    splitOnChar sep (p ++ sep :: rest) = p :: splitOnChar sep rest := by
  induction p with
  | nil =>
    rcases h : splitOnChar sep rest with _ | ⟨hd, tl⟩
    · exact absurd h (splitOnChar_ne_nil sep rest)
    · rw [List.nil_append, splitOnChar, h]
      show (if sep = sep then [] :: hd :: tl else (sep :: hd) :: tl) = [] :: hd :: tl
      rw [if_pos rfl]
  | cons a p ih =>
    have ha : ¬a = sep := fun he => hp (he ▸ List.mem_cons_self a p)
    have hp2 : sep ∉ p := fun hm => hp (List.mem_cons_of_mem a hm)
    rcases h : splitOnChar sep (p ++ sep :: rest) with _ | ⟨hd, tl⟩
    · exact absurd h (splitOnChar_ne_nil sep _)
    · have h2 := (ih hp2).symm.trans h
      injection h2 with h3 h4
      rw [List.cons_append, splitOnChar, h]
      show (if a = sep then [] :: hd :: tl else (a :: hd) :: tl) = (a :: p) :: splitOnChar sep rest
      rw [if_neg ha, ← h3, h4]

theorem splitOnChar_joinChar (sep : Char) (parts : List Str) (h : parts ≠ [])
    (hm : ∀ p ∈ parts, sep ∉ p) :
    splitOnChar sep (joinChar sep parts) = parts := by
  induction parts with
  | nil => exact absurd rfl h
  | cons p ps ih =>
    rcases ps with _ | ⟨q, ps⟩
    · exact splitOnChar_no_sep sep p (hm p (by simp))
    · rw [joinChar, splitOnChar_append_sep sep p _ (hm p (by simp))]
      rw [ih (by simp) (fun x hx => hm x (List.mem_cons_of_mem p hx))]

theorem dropWhile_eq_self_of_all {p : Char → Bool} (l : Str)
    (h : ∀ c ∈ l, p c = false) : l.dropWhile p = l := by
  cases l with
  | nil => rfl
  | cons a l =>
    rw [List.dropWhile_cons, if_neg]
    simp [h a (by simp)]

theorem jsTrim_eq_self (l : Str) (h : ∀ c ∈ l, jsWS c = false) : jsTrim l = l := by
  rw [jsTrim, dropWhile_eq_self_of_all l h,
    dropWhile_eq_self_of_all _ (fun c hc => h c (List.mem_reverse.mp hc)),
    List.reverse_reverse]

theorem lastIndexOfChar_not_mem (c : Char) (l : Str) (h : c ∉ l) :
    lastIndexOfChar c l = none := by
  induction l with
  | nil => rfl
  | cons a l ih =>
    have ha : ¬a = c := fun he => h (he ▸ List.mem_cons_self a l)
    rw [lastIndexOfChar, ih (fun hm => h (List.mem_cons_of_mem a hm))]
    simp [ha]

theorem lastIndexOfChar_append (c : Char) (v d : Str) (hd : c ∉ d) :
    lastIndexOfChar c (v ++ c :: d) = some v.length := by
  induction v with
  | nil =>
    rw [List.nil_append, lastIndexOfChar, lastIndexOfChar_not_mem c d hd]
    simp
  | cons a v ih =>
    rw [List.cons_append, lastIndexOfChar, ih]
    simp

/-!
## Supporting lemmas: cookie signing round trip and cookie parsing
-/

theorem unsignModel_signModel (hmac : Str → Str → Str) (secret v : Str)
    (hd : '.' ∉ hmac secret v) :
    unsignModel hmac secret (signModel hmac secret v) = some v := by
  rw [unsignModel]
  rw [show signModel hmac secret v = v ++ '.' :: hmac secret v from rfl]
  rw [lastIndexOfChar_append _ _ _ hd]
  simp only [List.take_left]
  rw [if_pos (show signModel hmac secret v = v ++ '.' :: hmac secret v from rfl)]

theorem takeWhile_ne_eq_append (name v : Str) (h : '=' ∉ name) :
    (name ++ '=' :: v).takeWhile (fun c => !(c == '=')) = name := by
  induction name with
  | nil =>
    rw [List.nil_append, List.takeWhile_cons]
    simp
  | cons a name ih =>
    have ha : ¬a = '=' := fun he => h (he ▸ List.mem_cons_self a name)
    rw [List.cons_append, List.takeWhile_cons, ih (fun hm => h (List.mem_cons_of_mem a hm))]
    simp [ha]

theorem dropWhile_ne_eq_append (name v : Str) (h : '=' ∉ name) :
    (name ++ '=' :: v).dropWhile (fun c => !(c == '=')) = '=' :: v := by
  induction name with
  | nil =>
    rw [List.nil_append, List.dropWhile_cons]
    simp
  | cons a name ih =>
    have ha : ¬a = '=' := fun he => h (he ▸ List.mem_cons_self a name)
    rw [List.cons_append, List.dropWhile_cons, if_pos (by simp [ha])]
    exact ih (fun hm => h (List.mem_cons_of_mem a hm))

theorem isPrefixOf_append_self (xs t : Str) : xs.isPrefixOf (xs ++ t) = true := by
  induction xs with
  | nil => simp [List.isPrefixOf]
  | cons a xs ih => simp [List.isPrefixOf_cons₂, ih]

theorem cookieKey_ne_of_not_isPrefixOf (f name : Str)
    (h : name.isPrefixOf (jsTrim f) = false) : cookieKey f ≠ name := by
  intro he
  have heq : jsTrim f = name ++ (jsTrim f).dropWhile (fun c => !(c == '=')) := by
    rw [← he, cookieKey]
    exact (List.takeWhile_append_dropWhile _ _).symm
  rw [heq, isPrefixOf_append_self] at h
  simp at h

theorem cookieFrag_key_val (name v : Str)
    (hnw : ∀ ch ∈ name, jsWS ch = false) (hne : '=' ∉ name)
    (hvw : ∀ ch ∈ v, jsWS ch = false) :
    cookieKey (name ++ '=' :: v) = name ∧ cookieValOf (name ++ '=' :: v) = v := by
  have htrim : jsTrim (name ++ '=' :: v) = name ++ '=' :: v := by
    apply jsTrim_eq_self
    intro ch hch
    rcases List.mem_append.mp hch with h | h
    · exact hnw ch h
    · rcases List.mem_cons.mp h with rfl | h
      · decide
      · exact hvw ch h
  constructor
  · rw [cookieKey, htrim]
    exact takeWhile_ne_eq_append name v hne
  · rw [cookieValOf, htrim, dropWhile_ne_eq_append name v hne]
    rfl

theorem verifySignedVal_enc (hmac : Str → Str → Str) (secret sid : Str)
    (hdot : '.' ∉ hmac secret sid) :
    (decodeURIComponent (encodeURIComponent ('s' :: ':' :: signModel hmac secret sid))).bind
      (fun d => verifySignedVal hmac secret d) = some sid := by
  rw [decodeURIComponent_encodeURIComponent]
  show verifySignedVal hmac secret ('s' :: ':' :: signModel hmac secret sid) = some sid
  have hpre2 : (['s', ':'].isPrefixOf ('s' :: ':' :: signModel hmac secret sid)) = true := by
    simp [List.isPrefixOf]
  rw [verifySignedVal, if_pos hpre2]
  show unsignModel hmac secret (signModel hmac secret sid) = some sid
  exact unsignModel_signModel hmac secret sid hdot

theorem getCookie_last (parts : List Str) (frag name : Str)
    (hsep : ∀ p ∈ parts, ';' ∉ p) (hfs : ';' ∉ frag)
    (hkeys : ∀ p ∈ parts, cookieKey p ≠ name)
    (hkey : cookieKey frag = name) :
    getCookie (joinChar ';' (parts ++ [frag])) name = some (cookieValOf frag) := by
  rw [getCookie, splitOnChar_joinChar ';' (parts ++ [frag])
    (List.append_ne_nil_of_right_ne_nil parts (by simp))
    (by
      intro p hp
      rcases List.mem_append.mp hp with h | h
      · exact hsep p h
      · rw [List.mem_singleton.mp h]
        exact hfs)]
  rw [List.findSome?_append]
  have h1 : (List.findSome?
      (fun f => if cookieKey f = name then some (cookieValOf f) else none) parts) = none := by
    rw [List.findSome?_eq_none_iff]
    intro p hp
    rw [if_neg (hkeys p hp)]
  rw [h1]
  simp [List.findSome?_cons, hkey]

theorem signedSessionCookie_chars (hmac : Str → Str → Str) (secret sid name : Str)
    (hnm : ∀ ch ∈ name, jsWS ch = false ∧ ch ≠ '=' ∧ ch ≠ ';') :
    (';' ∉ signedSessionCookie hmac secret sid name) ∧
    cookieKey (signedSessionCookie hmac secret sid name) = name ∧
    cookieValOf (signedSessionCookie hmac secret sid name) =
      encodeURIComponent ('s' :: ':' :: signModel hmac secret sid) := by
  have hkv := cookieFrag_key_val name
    (encodeURIComponent ('s' :: ':' :: signModel hmac secret sid))
    (fun ch h => (hnm ch h).1)
    (fun hm => (hnm '=' hm).2.1 rfl)
    (fun ch h => (encodeURIComponent_chars _ ch h).2.2)
  refine ⟨?_, hkv.1, hkv.2⟩
  intro hm
  rw [signedSessionCookie] at hm
  rcases List.mem_append.mp hm with h | h
  · exact (hnm ';' h).2.2 rfl
  · rcases List.mem_cons.mp h with he | h
    · exact absurd he (by decide)
    · exact (encodeURIComponent_chars _ ';' h).1 rfl

theorem sessionBridge_none_cookie (hmac : Str → Str → Str) (secret sid name : Str)
    (hse : sid.isEmpty = false) (hne : name.isEmpty = false) :
    sessionBridge hmac secret true ⟨some sid, some name, none⟩ =
      ⟨⟨some sid, some name, some (signedSessionCookie hmac secret sid name)⟩, true⟩ := by
  simp [sessionBridge, hse, hne]

theorem sessionBridge_some_cookie (hmac : Str → Str → Str) (secret sid name c : Str)
    (hse : sid.isEmpty = false) (hne : name.isEmpty = false) :
    sessionBridge hmac secret true ⟨some sid, some name, some c⟩ =
      ⟨⟨some sid, some name, some (joinChar ';'
        ((splitOnChar ';' c).filter (fun ck => !(name.isPrefixOf (jsTrim ck))) ++
          [signedSessionCookie hmac secret sid name]))⟩, true⟩ := by
  simp [sessionBridge, hse, hne]

theorem sessionBridge_fallback (hmac : Str → Str → Str) (secret sid name : Str)
    (ocookie : Option Str) (hse : sid.isEmpty = false) (hne : name.isEmpty = false) :
    sessionBridge hmac secret false ⟨some sid, some name, ocookie⟩ =
      ⟨⟨some sid, some name, some (fallbackSessionCookie sid name)⟩, true⟩ := by
  simp [sessionBridge, hse, hne]

theorem sessionBridge_empty_header (hmac : Str → Str → Str) (secret : Str)
    (signOk : Bool) (sid nm : Str) (ocookie : Option Str)
    (hor : (sid.isEmpty || nm.isEmpty) = true) :
    sessionBridge hmac secret signOk ⟨some sid, some nm, ocookie⟩ =
      ⟨⟨some sid, some nm, ocookie⟩, true⟩ := by
  simp [sessionBridge, hor]

/-!
## Claim theorems for the Session Bridge
-/

/-- C3: for every request carrying both `x-session-id` and `x-session-name`
headers and no pre-existing cookie of that name, the Session Bridge
synthesizes a cookie named by `x-session-name` whose value, after
URL-decoding and verifying the signature with the process session secret,
recovers exactly the raw `x-session-id` value. -/
theorem C3_session_cookie_roundtrip (hmac : Str → Str → Str) (secret : Str)
    (req : Req) (sid name : Str)
    (hid : req.xSessionId = some sid) (hname : req.xSessionName = some name)
    (hsid : sid ≠ []) (hn : name ≠ [])
    (hdot : '.' ∉ hmac secret sid)
    (hnm : ∀ ch ∈ name, jsWS ch = false ∧ ch ≠ '=' ∧ ch ≠ ';')
    (_hnc : ∀ c, req.cookie = some c → ∀ f ∈ splitOnChar ';' c, cookieKey f ≠ name) :
    ((getCookie (((sessionBridge hmac secret true req).req.cookie).getD []) name).bind
      (fun v => (decodeURIComponent v).bind (fun d => verifySignedVal hmac secret d)))
      = some sid := by
  obtain ⟨oid, oname, ocookie⟩ := req
  replace hid : oid = some sid := hid
  replace hname : oname = some name := hname
  subst hid hname
  have hse : sid.isEmpty = false := by
    rw [Bool.eq_false_iff, Ne, List.isEmpty_iff]
    exact hsid
  have hne : name.isEmpty = false := by
    rw [Bool.eq_false_iff, Ne, List.isEmpty_iff]
    exact hn
  have hchars := signedSessionCookie_chars hmac secret sid name hnm
  rcases ocookie with _ | c
  · rw [sessionBridge_none_cookie hmac secret sid name hse hne]
    show ((getCookie (signedSessionCookie hmac secret sid name) name).bind
      (fun v => (decodeURIComponent v).bind (fun d => verifySignedVal hmac secret d))) = some sid
    rw [getCookie, splitOnChar_no_sep ';' _ hchars.1]
    rw [show List.findSome?
        (fun f => if cookieKey f = name then some (cookieValOf f) else none)
        [signedSessionCookie hmac secret sid name] =
        some (cookieValOf (signedSessionCookie hmac secret sid name)) from by
      simp [List.findSome?_cons, hchars.2.1]]
    rw [show Option.bind (some (cookieValOf (signedSessionCookie hmac secret sid name)))
        (fun v => (decodeURIComponent v).bind (fun d => verifySignedVal hmac secret d)) =
        (decodeURIComponent (cookieValOf (signedSessionCookie hmac secret sid name))).bind
          (fun d => verifySignedVal hmac secret d) from rfl]
    rw [hchars.2.2]
    exact verifySignedVal_enc hmac secret sid hdot
  · rw [sessionBridge_some_cookie hmac secret sid name c hse hne]
    show ((getCookie (joinChar ';'
        ((splitOnChar ';' c).filter (fun ck => !(name.isPrefixOf (jsTrim ck))) ++
          [signedSessionCookie hmac secret sid name])) name).bind
      (fun v => (decodeURIComponent v).bind (fun d => verifySignedVal hmac secret d))) = some sid
    rw [getCookie_last _ _ _
      (fun p hp => splitOnChar_not_mem ';' c p (List.mem_filter.mp hp).1)
      hchars.1
      (fun p hp => cookieKey_ne_of_not_isPrefixOf p name
        (by simpa using (List.mem_filter.mp hp).2))
      hchars.2.1]
    rw [show Option.bind (some (cookieValOf (signedSessionCookie hmac secret sid name)))
        (fun v => (decodeURIComponent v).bind (fun d => verifySignedVal hmac secret d)) =
        (decodeURIComponent (cookieValOf (signedSessionCookie hmac secret sid name))).bind
          (fun d => verifySignedVal hmac secret d) from rfl]
    rw [hchars.2.2]
    exact verifySignedVal_enc hmac secret sid hdot

/-- C4 counterexample: session name `sid`, pre-existing cookie header
`sid2=w`.  The cookie named `sid2` has a different name than the session
name `sid`, yet the bridge's prefix-based filter drops it: the resulting
header is exactly the synthesized cookie and `sid2` is gone. -/
theorem C4_counterexample :
    cookieKey (String.data "sid2=w") ≠ String.data "sid" ∧
    (sessionBridge (fun _ _ => String.data "MAC") (String.data "sec") true
        ⟨some (String.data "abc"), some (String.data "sid"),
          some (String.data "sid2=w")⟩).req.cookie =
      some (String.data "sid=s%3Aabc.MAC") ∧
    String.data "sid2=w" ∉ splitOnChar ';' (String.data "sid=s%3Aabc.MAC") ∧
    getCookie (String.data "sid=s%3Aabc.MAC") (String.data "sid2") = none := by
  decide

/-- C4 (amended): with both custom headers present and a pre-existing
cookie header, the bridge removes every cookie fragment whose trimmed text
has the session name as a prefix (not only the cookie named exactly by
it), appends the synthesized signed cookie at the end, and preserves
verbatim, in order, every fragment whose trimmed text does not start with
the session name. -/
theorem C4_amended_prefix_filter (hmac : Str → Str → Str) (secret : Str)
    (req : Req) (sid name c : Str)
    (hid : req.xSessionId = some sid) (hname : req.xSessionName = some name)
    (hsid : sid ≠ []) (hn : name ≠ []) (hc : req.cookie = some c)
    (hnm : ∀ ch ∈ name, jsWS ch = false ∧ ch ≠ '=' ∧ ch ≠ ';') :
    splitOnChar ';' (((sessionBridge hmac secret true req).req.cookie).getD []) =
      (splitOnChar ';' c).filter (fun ck => !(name.isPrefixOf (jsTrim ck))) ++
        [signedSessionCookie hmac secret sid name] ∧
    ∀ f ∈ splitOnChar ';' c, name.isPrefixOf (jsTrim f) = false →
      f ∈ splitOnChar ';' (((sessionBridge hmac secret true req).req.cookie).getD []) := by
  obtain ⟨oid, oname, ocookie⟩ := req
  replace hid : oid = some sid := hid
  replace hname : oname = some name := hname
  replace hc : ocookie = some c := hc
  subst hid hname hc
  have hse : sid.isEmpty = false := by
    rw [Bool.eq_false_iff, Ne, List.isEmpty_iff]
    exact hsid
  have hne : name.isEmpty = false := by
    rw [Bool.eq_false_iff, Ne, List.isEmpty_iff]
    exact hn
  have hchars := signedSessionCookie_chars hmac secret sid name hnm
  rw [sessionBridge_some_cookie hmac secret sid name c hse hne]
  have hsplit : splitOnChar ';' (joinChar ';'
      ((splitOnChar ';' c).filter (fun ck => !(name.isPrefixOf (jsTrim ck))) ++
        [signedSessionCookie hmac secret sid name])) =
      (splitOnChar ';' c).filter (fun ck => !(name.isPrefixOf (jsTrim ck))) ++
        [signedSessionCookie hmac secret sid name] := by
    apply splitOnChar_joinChar
    · exact List.append_ne_nil_of_right_ne_nil _ (by simp)
    · intro p hp
      rcases List.mem_append.mp hp with h | h
      · exact splitOnChar_not_mem ';' c p (List.mem_filter.mp h).1
      · rw [List.mem_singleton.mp h]
        exact hchars.1
  refine ⟨hsplit, ?_⟩
  intro f hf hpred
  show f ∈ splitOnChar ';' (Option.getD (some (joinChar ';' _)) [])
  rw [Option.getD_some, hsplit]
  apply List.mem_append_left
  exact List.mem_filter.mpr ⟨hf, by simp [hpred]⟩

/-- C7: when computing the signed cookie value raises, the Session Bridge
does not reject the request: it writes the unsigned fallback cookie
`<session-name>=s%3A<raw session id>` into the cookie header and still
passes control to the underlying session engine. -/
theorem C7_sign_failure_fallback (hmac : Str → Str → Str) (secret : Str)
    (req : Req) (sid name : Str)
    (hid : req.xSessionId = some sid) (hname : req.xSessionName = some name)
    (hsid : sid ≠ []) (hn : name ≠ []) :
    (sessionBridge hmac secret false req).delegated = true ∧
    (sessionBridge hmac secret false req).req.cookie =
      some (fallbackSessionCookie sid name) := by
  obtain ⟨oid, oname, ocookie⟩ := req
  replace hid : oid = some sid := hid
  replace hname : oname = some name := hname
  subst hid hname
  have hse : sid.isEmpty = false := by
    rw [Bool.eq_false_iff, Ne, List.isEmpty_iff]
    exact hsid
  have hne : name.isEmpty = false := by
    rw [Bool.eq_false_iff, Ne, List.isEmpty_iff]
    exact hn
  rw [sessionBridge_fallback hmac secret sid name ocookie hse hne]
  exact ⟨rfl, rfl⟩

/-- C9: a request carrying exactly one of the two custom headers (either
alone, in the JavaScript truthiness sense) passes through the Session
Bridge completely unchanged, cookie header included. -/
theorem C9_single_header_untouched (hmac : Str → Str → Str) (secret : Str)
    (signOk : Bool) (req : Req)
    (h : (truthyS req.xSessionId = true ∧ truthyS req.xSessionName = false) ∨
         (truthyS req.xSessionId = false ∧ truthyS req.xSessionName = true)) :
    (sessionBridge hmac secret signOk req).req = req := by
  obtain ⟨oid, oname, ocookie⟩ := req
  replace h : (truthyS oid = true ∧ truthyS oname = false) ∨
      (truthyS oid = false ∧ truthyS oname = true) := h
  rcases oid with _ | sid
  · rcases oname with _ | nm
    · rfl
    · rfl
  · rcases oname with _ | nm
    · rfl
    · have hor : (sid.isEmpty || nm.isEmpty) = true := by
        rcases h with ⟨h1, h2⟩ | ⟨h1, h2⟩
        · have h3 : nm.isEmpty = true := by simpa [truthyS] using h2
          simp [h3]
        · have h3 : sid.isEmpty = true := by simpa [truthyS] using h1
          simp [h3]
      rw [sessionBridge_empty_header hmac secret signOk sid nm ocookie hor]

/-- C10: on the signing-failure fallback path the entire cookie header is
replaced by the single unsigned session cookie; every other cookie that
was present in the request's cookie header is dropped. -/
theorem C10_fallback_replaces_header (hmac : Str → Str → Str) (secret : Str)
    (req : Req) (sid name c : Str)
    (hid : req.xSessionId = some sid) (hname : req.xSessionName = some name)
    (hsid : sid ≠ []) (hn : name ≠ []) (hc : req.cookie = some c)
    (hns : ';' ∉ name) (hss : ';' ∉ sid) :
    (sessionBridge hmac secret false req).req.cookie =
      some (fallbackSessionCookie sid name) ∧
    ∀ f ∈ splitOnChar ';' c, f ≠ fallbackSessionCookie sid name →
      f ∉ splitOnChar ';' (fallbackSessionCookie sid name) := by
  obtain ⟨oid, oname, ocookie⟩ := req
  replace hid : oid = some sid := hid
  replace hname : oname = some name := hname
  replace hc : ocookie = some c := hc
  subst hid hname hc
  have hse : sid.isEmpty = false := by
    rw [Bool.eq_false_iff, Ne, List.isEmpty_iff]
    exact hsid
  have hne : name.isEmpty = false := by
    rw [Bool.eq_false_iff, Ne, List.isEmpty_iff]
    exact hn
  have hfb : ';' ∉ fallbackSessionCookie sid name := by
    intro hm
    rw [fallbackSessionCookie] at hm
    rcases List.mem_append.mp hm with h | h
    · exact hns h
    · rcases List.mem_cons.mp h with he | h
      · exact absurd he (by decide)
      · rcases List.mem_cons.mp h with he | h
        · exact absurd he (by decide)
        · rcases List.mem_cons.mp h with he | h
          · exact absurd he (by decide)
          · rcases List.mem_cons.mp h with he | h
            · exact absurd he (by decide)
            · rcases List.mem_cons.mp h with he | h
              · exact absurd he (by decide)
              · exact hss h
  constructor
  · rw [sessionBridge_fallback hmac secret sid name (some c) hse hne]
  · intro f _ hfne
    rw [splitOnChar_no_sep ';' _ hfb]
    intro hmem
    exact hfne (List.mem_singleton.mp hmem)

/-!
## Claim theorems for the Guild Membership Gateway
-/

/-- C5: `isUserInGuild` returns `false` — and, being a total
`Bool`-valued function, never raises — when the gateway has no client or
has not completed initialization, when the guild fetch fails, and when the
user is not found in the guild membership; the signup-side wrapper
`isDiscordUserInGuild` observes exactly this value, so the caller never
sees an exception. -/
theorem C5_isUserInGuild_false_paths (st : BotState) (u g : String) :
    (st.client = none → isUserInGuild st u g = false) ∧
    (st.initialized = false → isUserInGuild st u g = false) ∧
    (∀ cm, st.client = some cm → cm.fetchGuild g = none →
      isUserInGuild st u g = false) ∧
    (∀ cm gm, st.client = some cm → cm.fetchGuild g = some gm →
      gm.memberFetchOk u = false → isUserInGuild st u g = false) ∧
    isDiscordUserInGuild st u g = isUserInGuild st u g := by
  refine ⟨?_, ?_, ?_, ?_, rfl⟩
  · intro h
    simp [isUserInGuild, h]
  · intro h
    rcases hcl : st.client with _ | cm
    · simp [isUserInGuild, hcl]
    · simp [isUserInGuild, hcl, h]
  · intro cm hcl hg
    simp [isUserInGuild, hcl, hg]
  · intro cm gm hcl hg hm
    simp [isUserInGuild, hcl, hg, hm]

/-- C6: the reconnect delay for (1-based) attempt `n` is
`min (1000 * 2 ^ n) 30000`, so six consecutive transport errors starting
from a fresh gateway schedule exactly the delays 2000, 4000, 8000, 16000,
30000 and then nothing; once the attempt counter has reached the ceiling,
`handleReconnect` schedules no reconnect at all. -/
theorem C6_reconnect_backoff :
    (∀ cl init, runTransportErrors 6 ⟨cl, init, 0⟩ =
      [some 2000, some 4000, some 8000, some 16000, some 30000, none]) ∧
    (∀ st : BotState, MAX_RECONNECT_ATTEMPTS ≤ st.reconnectAttempts →
      handleReconnect st = (st, none)) := by
  constructor
  · intro cl init
    norm_num [runTransportErrors, handleReconnect, MAX_RECONNECT_ATTEMPTS]
  · intro st h
    rw [handleReconnect, if_pos h]

/-!
## Claim theorems for the Signup Orchestrator
-/

/-- C8: the Discord-id format validator accepts a string exactly when it
consists of 17 to 19 decimal digits; in particular it accepts 17-, 18- and
19-digit numeric strings and rejects a 16-digit string, a 20-digit string,
the empty string, and a string containing a non-digit character. -/
theorem C8_discord_id_format :
    (∀ s : String, isValidDiscordIdFormat s = true ↔
      (17 ≤ s.data.length ∧ s.data.length ≤ 19 ∧ ∀ ch ∈ s.data, ch.isDigit = true)) ∧
    isValidDiscordIdFormat "12345678901234567" = true ∧
    isValidDiscordIdFormat "123456789012345678" = true ∧
    isValidDiscordIdFormat "1234567890123456789" = true ∧
    isValidDiscordIdFormat "1234567890123456" = false ∧
    isValidDiscordIdFormat "12345678901234567890" = false ∧
    isValidDiscordIdFormat "" = false ∧
    isValidDiscordIdFormat "1234567890a234567" = false := by
  refine ⟨?_, by decide, by decide, by decide, by decide, by decide, by decide, by decide⟩
  intro s
  rw [isValidDiscordIdFormat]
  constructor
  · intro h
    simp only [Bool.and_eq_true, decide_eq_true_eq, List.isEmpty_iff] at h
    obtain ⟨⟨h1, h2⟩, h3⟩ := h
    have hall : ∀ ch ∈ s.data, ch.isDigit = true := List.dropWhile_eq_nil_iff.mp h3
    have htw : s.data.takeWhile Char.isDigit = s.data :=
      List.takeWhile_eq_self_iff.mpr hall
    rw [htw] at h1 h2
    exact ⟨h1, h2, hall⟩
  · intro h
    obtain ⟨h1, h2, hall⟩ := h
    have htw : s.data.takeWhile Char.isDigit = s.data :=
      List.takeWhile_eq_self_iff.mpr hall
    have hdw : s.data.dropWhile Char.isDigit = [] :=
      List.dropWhile_eq_nil_iff.mpr hall
    simp [htw, hdw]
    exact ⟨by simpa using h1, by simpa using h2⟩

/-- C1: the signup gates run in their fixed order and the first failing
gate short-circuits the rest: a request with a team name but missing both
`team_member_id` and `discord_id` is rejected with the invite-only
message (which differs from the Discord-required message), and a request
whose `discord_id` fails the 17-19 digit format check is rejected at the
format gate with the Guild Membership Gateway never queried (and no
commit or email attempt). -/
theorem C1_gate_order (env : SignupEnv) (b : SignupBody) (email : String) :
    (truthy b.team_name = true → truthy b.team_member_id = false →
      truthy b.discord_id = false →
      handleSignUp env b email = (.rejected MSG_INVITE_ONLY, ⟨0, 0, 0, []⟩) ∧
      MSG_INVITE_ONLY ≠ MSG_DISCORD_REQUIRED) ∧
    (truthy b.team_name = true → truthy b.team_member_id = true →
      truthy b.discord_id = true →
      isValidDiscordIdFormat (b.discord_id.getD "") = false →
      handleSignUp env b email = (.rejected MSG_DISCORD_FORMAT, ⟨0, 0, 0, []⟩) ∧
      (handleSignUp env b email).2.gatewayQueries = 0) := by
  constructor
  · intro h1 h2 _h3
    refine ⟨?_, by decide⟩
    simp [handleSignUp, h1, h2]
  · intro h1 h2 h3 h4
    have hmain : handleSignUp env b email =
        (.rejected MSG_DISCORD_FORMAT, ⟨0, 0, 0, []⟩) := by
      simp [handleSignUp, h1, h2, h3, h4]
    exact ⟨hmain, by rw [hmain]⟩

/-- C2: a signup request that passes every validation gate (team name and
invite reference present, well-formed and unused discord id, configured
guild, gateway reporting membership, no Google-account or deactivated
conflict) with a succeeding commit reaches the `registerUser` commit call
exactly once and attempts exactly one welcome-email dispatch; the outcome
of the fire-and-forget email dispatch never changes the success result. -/
theorem C2_success_commit_email (env : SignupEnv) (b : SignupBody)
    (email did g u : String)
    (h1 : truthy b.team_name = true) (h2 : truthy b.team_member_id = true)
    (hdid : b.discord_id = some did) (hfmt : isValidDiscordIdFormat did = true)
    (htaken : env.db.discordIdTaken did = false)
    (hcfg : env.guildIdCfg = some g) (hg : g ≠ "")
    (hmem : isUserInGuild env.bot did g = true)
    (hgoogle : env.db.googleAccountFound email = false)
    (hdeact : env.db.accountDeactivated email = false)
    (hcommit : env.commit = .ok u) :
    handleSignUp env b email =
      (.succeeded u MSG_SIGNUP_SUCCESS, ⟨1, 1, 1, [env.emailOk]⟩) ∧
    (handleSignUp { env with emailOk := false } b email).1 =
      (handleSignUp { env with emailOk := true } b email).1 := by
  have hde : did ≠ "" := by
    intro he
    rw [he] at hfmt
    exact absurd hfmt (by decide)
  have hdemp : did.isEmpty = false := by
    rw [Bool.eq_false_iff]
    intro hh
    exact hde ((String.isEmpty_iff did).mp hh)
  have hgemp : g.isEmpty = false := by
    rw [Bool.eq_false_iff]
    intro hh
    exact hg ((String.isEmpty_iff g).mp hh)
  have h3 : truthy (some did) = true := by
    simp [truthy, hdemp]
  have htr : truthy (some g) = true := by
    simp [truthy, hgemp]
  refine ⟨?_, ?_⟩
  · simp [handleSignUp, h1, h2, h3, hdid, hfmt, htaken, htr, hcfg,
      isDiscordUserInGuild, hmem, hgoogle, hdeact, hcommit]
  · have hm1 : (handleSignUp { env with emailOk := false } b email).1 =
        .succeeded u MSG_SIGNUP_SUCCESS := by
      simp [handleSignUp, h1, h2, h3, hdid, hfmt, htaken, htr, hcfg,
        isDiscordUserInGuild, hmem, hgoogle, hdeact, hcommit]
    have hm2 : (handleSignUp { env with emailOk := true } b email).1 =
        .succeeded u MSG_SIGNUP_SUCCESS := by
      simp [handleSignUp, h1, h2, h3, hdid, hfmt, htaken, htr, hcfg,
        isDiscordUserInGuild, hmem, hgoogle, hdeact, hcommit]
    rw [hm1, hm2]

/-!
## Witnesses: each hypothesis-bearing claim theorem applied at a concrete input
-/

/-- Witness for C1 at a concrete environment: a body with team name
`Acme` and no ids hits the invite-only gate; one with ids but the 5-digit
`12345` hits the format gate with no gateway query. -/
theorem C1_gate_order_witness :
    (handleSignUp
        ⟨⟨fun _ => false, fun _ => false, fun _ => false⟩, ⟨none, false, 0⟩,
          none, .ok "u", true⟩
        ⟨none, none, some "Acme", none, none, none, none⟩ "e@x" =
      (.rejected MSG_INVITE_ONLY, ⟨0, 0, 0, []⟩) ∧
      MSG_INVITE_ONLY ≠ MSG_DISCORD_REQUIRED) ∧
    (handleSignUp
        ⟨⟨fun _ => false, fun _ => false, fun _ => false⟩, ⟨none, false, 0⟩,
          none, .ok "u", true⟩
        ⟨none, none, some "Acme", none, some "tm1", some "12345", none⟩ "e@x" =
      (.rejected MSG_DISCORD_FORMAT, ⟨0, 0, 0, []⟩) ∧
      (handleSignUp
        ⟨⟨fun _ => false, fun _ => false, fun _ => false⟩, ⟨none, false, 0⟩,
          none, .ok "u", true⟩
        ⟨none, none, some "Acme", none, some "tm1", some "12345", none⟩
        "e@x").2.gatewayQueries = 0) :=
  ⟨(C1_gate_order _ _ _).1 (by decide) (by decide) (by decide),
   (C1_gate_order _ _ _).2 (by decide) (by decide) (by decide) (by decide)⟩

/-- Witness for C2 at a concrete environment with a `Ready` gateway
reporting membership and a succeeding commit. -/
theorem C2_success_commit_email_witness :
    handleSignUp
        ⟨⟨fun _ => false, fun _ => false, fun _ => false⟩,
          ⟨some ⟨fun _ => some ⟨fun _ => true⟩⟩, true, 0⟩,
          some "guild1", .ok "user1", true⟩
        ⟨some "N", some "e@x", some "Acme", some "T", some "tm1",
          some "123456789012345678", some "UTC"⟩ "e@x" =
      (.succeeded "user1" MSG_SIGNUP_SUCCESS, ⟨1, 1, 1, [true]⟩) :=
  (C2_success_commit_email _ _ "e@x" "123456789012345678" "guild1" "user1"
    (by decide) (by decide) rfl (by decide) rfl rfl (by decide) (by decide)
    rfl rfl rfl).1

/-- Witness for C3 at a concrete request with an unrelated pre-existing
cookie and a concrete digest function. -/
theorem C3_session_cookie_roundtrip_witness :
    ((getCookie
        (((sessionBridge (fun _ _ => String.data "MAC") (String.data "sec") true
          ⟨some (String.data "abc"), some (String.data "sid"),
            some (String.data "other=1")⟩).req.cookie).getD [])
        (String.data "sid")).bind
      (fun v => (decodeURIComponent v).bind
        (fun d => verifySignedVal (fun _ _ => String.data "MAC") (String.data "sec") d)))
      = some (String.data "abc") :=
  C3_session_cookie_roundtrip (fun _ _ => String.data "MAC") (String.data "sec")
    ⟨some (String.data "abc"), some (String.data "sid"), some (String.data "other=1")⟩
    (String.data "abc") (String.data "sid") rfl rfl (by decide) (by decide)
    (by decide) (by decide)
    (by
      intro c hc
      injection hc with h2
      rw [← h2]
      decide)

/-- Witness for the amended C4 at a concrete request whose cookie header
holds an unrelated cookie and an old same-named cookie. -/
theorem C4_amended_prefix_filter_witness :
    splitOnChar ';'
        (((sessionBridge (fun _ _ => String.data "MAC") (String.data "sec") true
          ⟨some (String.data "abc"), some (String.data "sid"),
            some (String.data "other=1; sid=old")⟩).req.cookie).getD []) =
      (splitOnChar ';' (String.data "other=1; sid=old")).filter
        (fun ck => !((String.data "sid").isPrefixOf (jsTrim ck))) ++
        [signedSessionCookie (fun _ _ => String.data "MAC") (String.data "sec")
          (String.data "abc") (String.data "sid")] :=
  (C4_amended_prefix_filter (fun _ _ => String.data "MAC") (String.data "sec")
    ⟨some (String.data "abc"), some (String.data "sid"),
      some (String.data "other=1; sid=old")⟩
    (String.data "abc") (String.data "sid") (String.data "other=1; sid=old")
    rfl rfl (by decide) (by decide) rfl (by decide)).1

/-- Witness for C5 at a fresh (uninitialized) gateway state. -/
theorem C5_isUserInGuild_false_paths_witness :
    isUserInGuild ⟨none, false, 0⟩ "user1" "guild1" = false :=
  (C5_isUserInGuild_false_paths ⟨none, false, 0⟩ "user1" "guild1").1 rfl

/-- Witness for C6: at the attempt ceiling a further transport error
schedules no reconnect. -/
theorem C6_reconnect_backoff_witness :
    handleReconnect ⟨none, false, 5⟩ = (⟨none, false, 5⟩, none) :=
  C6_reconnect_backoff.2 ⟨none, false, 5⟩ (by decide)

/-- Witness for C7 at a concrete request on the signing-failure path. -/
theorem C7_sign_failure_fallback_witness :
    (sessionBridge (fun _ _ => String.data "MAC") (String.data "sec") false
        ⟨some (String.data "abc"), some (String.data "sid"),
          some (String.data "other=1")⟩).delegated = true ∧
    (sessionBridge (fun _ _ => String.data "MAC") (String.data "sec") false
        ⟨some (String.data "abc"), some (String.data "sid"),
          some (String.data "other=1")⟩).req.cookie =
      some (fallbackSessionCookie (String.data "abc") (String.data "sid")) :=
  C7_sign_failure_fallback (fun _ _ => String.data "MAC") (String.data "sec")
    ⟨some (String.data "abc"), some (String.data "sid"), some (String.data "other=1")⟩
    (String.data "abc") (String.data "sid") rfl rfl (by decide) (by decide)

/-- Witness for C8: the iff applied at a concrete 17-digit string. -/
theorem C8_discord_id_format_witness :
    isValidDiscordIdFormat "12345678901234567" = true :=
  (C8_discord_id_format.1 "12345678901234567").mpr (by decide)

/-- Witness for C9 at a request carrying only `x-session-id`. -/
theorem C9_single_header_untouched_witness :
    (sessionBridge (fun _ _ => String.data "MAC") (String.data "sec") true
        ⟨some (String.data "abc"), none, some (String.data "a=1")⟩).req =
      ⟨some (String.data "abc"), none, some (String.data "a=1")⟩ :=
  C9_single_header_untouched (fun _ _ => String.data "MAC") (String.data "sec") true
    ⟨some (String.data "abc"), none, some (String.data "a=1")⟩
    (Or.inl ⟨by decide, by decide⟩)

/-- Witness for C10 at a concrete request with a pre-existing cookie. -/
theorem C10_fallback_replaces_header_witness :
    (sessionBridge (fun _ _ => String.data "MAC") (String.data "sec") false
        ⟨some (String.data "abc"), some (String.data "sid"),
          some (String.data "other=1")⟩).req.cookie =
      some (fallbackSessionCookie (String.data "abc") (String.data "sid")) :=
  (C10_fallback_replaces_header (fun _ _ => String.data "MAC") (String.data "sec")
    ⟨some (String.data "abc"), some (String.data "sid"), some (String.data "other=1")⟩
    (String.data "abc") (String.data "sid") (String.data "other=1")
    rfl rfl (by decide) (by decide) rfl (by decide) (by decide)).1

end WL

